import Mathlib

/-!
Verification of the mori-tea-frontend cart, catalog and checkout logic.

The definitions below are a shallow embedding of the TypeScript source:
  - src/context/CartContext.tsx   (cart state container)
  - src/components/ProductGrid.tsx (catalog realtime update handler)
  - src/pages/Checkout.tsx        (checkout sequencer)
JavaScript numbers are modelled as exact rationals for prices and as
integers for quantities and stock counts; `undefined` optional fields are
modelled with `Option`.  JavaScript truthiness tests on a numeric field
(`item.sale_price && ...`) are modelled as the conjunction of definedness
and being nonzero.
-/

namespace MoriTea

/-- The `Product` interface from src/components/ProductCard.tsx. -/
structure Product where
  id : String
  name : String
  description : String
  short_description : Option String
  price : ℚ
  sale_price : Option ℚ
  originalPrice : Option ℚ
  weight : String
  images : Option (List String)
  image : Option (List String)
  hover_image : Option String
  stock : Option Int
deriving Repr, DecidableEq

/-- The cart entry type: `CartItem extends Product` with a quantity field,
from CartContext.tsx. -/
structure CartItem extends Product where
  quantity : Int
deriving Repr, DecidableEq

/-- The test `stock !== undefined && stock <= q` used by `addToCart`
(with `q = existingItem.quantity` for the increment path and `q = 0` for
the fresh-insert path). -/
def stockDefinedAndLe (stock : Option Int) (q : Int) : Bool :=
  match stock with
  | some s => decide (s ≤ q)
  | none => false

/-- Function `addToCart` from CartContext.tsx lines 91-113. -/
def addToCart (cart : List CartItem) (product : Product) : List CartItem :=
  match cart.find? (fun it => it.id == product.id) with
  | some existingItem =>
      if stockDefinedAndLe product.stock existingItem.quantity then cart
      else cart.map (fun it =>
        if it.id == product.id then { it with quantity := it.quantity + 1 } else it)
  | none =>
      if stockDefinedAndLe product.stock 0 then cart
      else cart ++ [⟨product, 1⟩]

/-- Function `removeFromCart` from CartContext.tsx lines 115-117. -/
def removeFromCart (cart : List CartItem) (productId : String) : List CartItem :=
  cart.filter (fun it => !(it.id == productId))

/-- Function `updateQuantity` from CartContext.tsx lines 119-137. -/
def updateQuantity (cart : List CartItem) (productId : String) (quantity : Int) :
    List CartItem :=
  if quantity ≤ 0 then removeFromCart cart productId
  else cart.map (fun it =>
    if it.id == productId then
      match it.stock with
      | some s => if s < quantity then { it with quantity := s }
                  else { it with quantity := quantity }
      | none => { it with quantity := quantity }
    else it)

/-- Function `updateProductInCart` from CartContext.tsx lines 38-49: keep the
quantity, replace the rest of the entry by the pushed product record. -/
def updateProductInCart (cart : List CartItem) (updatedProduct : Product) :
    List CartItem :=
  cart.map (fun it =>
    if it.id == updatedProduct.id then ⟨updatedProduct, it.quantity⟩ else it)

/-- Function `clearCart` from CartContext.tsx lines 139-141. -/
def clearCart (_cart : List CartItem) : List CartItem := []

/-- Function `getTotalItems` from CartContext.tsx lines 143-145. -/
def getTotalItems (cart : List CartItem) : Int :=
  cart.foldl (fun total it => total + it.quantity) 0

/-- The per-item effective price computed inside `getTotalPrice`
(CartContext.tsx lines 149-151): the truthiness chain
`item.sale_price && item.sale_price > 0 && item.sale_price < item.price`. -/
def cartEffectivePrice (it : CartItem) : ℚ :=
  match it.sale_price with
  | some sp => if sp ≠ 0 ∧ 0 < sp ∧ sp < it.price then sp else it.price
  | none => it.price

/-- Function `getTotalPrice` from CartContext.tsx lines 147-154. -/
def getTotalPrice (cart : List CartItem) : ℚ :=
  cart.foldl (fun total it => total + cartEffectivePrice it * it.quantity) 0

/-- Function `getItemQuantity` from CartContext.tsx lines 156-159. -/
def getItemQuantity (cart : List CartItem) (productId : String) : Int :=
  match cart.find? (fun it => it.id == productId) with
  | some it => it.quantity
  | none => 0

/-! ## Catalog view (ProductGrid.tsx) -/

/-- The `PocketBaseProduct` record shape received by the ProductGrid
realtime subscription (ProductGrid.tsx lines 11-26; `sale_price` is read
by the handler although absent from the interface).  An absent `hidden`
field is falsy in the source test `!e.record.hidden`, so it is modelled
as `false`. -/
structure ProductRecord where
  id : String
  name : String
  description : String
  short_description : Option String
  price : ℚ
  sale_price : Option ℚ
  category : String
  in_stock : Bool
  stock : Option Int
  image : List String
  hover_image : Option String
  hidden : Bool
deriving Repr, DecidableEq

/-- Function `transformRecord` from the ProductGrid subscribe handler
(ProductGrid.tsx lines 41-66): `sale_price === 0` becomes undefined,
a falsy `category` falls back to the string 100g, `images` is emptied. -/
def transformRecord (record : ProductRecord) : Product where
  id := record.id
  name := record.name
  description := record.description
  short_description := record.short_description
  price := record.price
  sale_price :=
    match record.sale_price with
    | some sp => if sp = 0 then none else some sp
    | none => none
  originalPrice := none
  weight := if record.category = "" then "100g" else record.category
  images := some []
  image := some record.image
  hover_image := record.hover_image
  stock := record.stock

/-- The `update` branch of the ProductGrid realtime handler
(ProductGrid.tsx lines 74-96): if the record is in stock and not hidden,
replace it in place when present and prepend it otherwise; else remove
it from the rendered list. -/
def applyProductUpdate (products : List Product) (record : ProductRecord) :
    List Product :=
  if record.in_stock && !record.hidden then
    match products.find? (fun p => p.id == record.id) with
    | some _ =>
        products.map (fun p => if p.id == record.id then transformRecord record else p)
    | none => transformRecord record :: products
  else
    products.filter (fun p => !(p.id == record.id))

/-! ## Checkout (Checkout.tsx) -/

/-- The `ShippingInfo` form state (Checkout.tsx lines 18-27). -/
structure ShippingInfo where
  firstName : String
  lastName : String
  email : String
  phone : String
  address : String
  city : String
  postalCode : String
  country : String
deriving Repr, DecidableEq

/-- Function `validateForm` from Checkout.tsx lines 336-345: each field in the
`required` array must be truthy (a nonempty string).  The array lists
firstName through postalCode and does not contain country. -/
def validateForm (s : ShippingInfo) : Bool :=
  !(s.firstName == "") && !(s.lastName == "") && !(s.email == "") &&
  !(s.phone == "") && !(s.address == "") && !(s.city == "") && !(s.postalCode == "")

/-- Function `handleShippingSubmit` (Checkout.tsx lines 347-352): the payment
intent is requested (`proceedToPayment`) exactly when `validateForm`
returns true. -/
def handleShippingSubmit (s : ShippingInfo) : Bool := validateForm s

/-- An order-item record as written to the order_items collection. -/
structure OrderItemData where
  order : String
  product : String
  quantity : Int
  price : ℚ
deriving Repr, DecidableEq

/-- The order-item record built by `handleOrderCreation`
(Checkout.tsx lines 168-174): its price is
`item.sale_price && item.sale_price > 0 ? item.sale_price : item.price`,
with no comparison against the regular price. -/
def mkOrderItemDirect (orderId : String) (it : CartItem) : OrderItemData where
  order := orderId
  product := it.id
  quantity := it.quantity
  price :=
    match it.sale_price with
    | some sp => if sp ≠ 0 ∧ 0 < sp then sp else it.price
    | none => it.price

/-- The order-item record built by `handlePaymentSuccess`
(Checkout.tsx lines 454-464): its price is the full effective-price
chain including `item.sale_price < item.price`. -/
def mkOrderItemPaid (orderId : String) (it : CartItem) : OrderItemData where
  order := orderId
  product := it.id
  quantity := it.quantity
  price :=
    match it.sale_price with
    | some sp => if sp ≠ 0 ∧ 0 < sp ∧ sp < it.price then sp else it.price
    | none => it.price

/-- An order record as written to the orders collection (the fields
relevant to the finalize sequence). -/
structure OrderData where
  id : String
  total_price : ℚ
  status : String
deriving Repr, DecidableEq

/-- The record-store contents touched by the checkout finalize
sequence: created orders, created order items, and the stock values
written back to products. -/
structure Store where
  orders : List OrderData
  orderItems : List OrderItemData
  stockWrites : List (String × Int)
deriving Repr, DecidableEq

/-- The write sequence of `handleOrderCreation` (Checkout.tsx lines
167-256) after the order record has been created successfully, with the
success of each per-item write given by the oracles `itemOk` and
`stockOk` and the re-fetched stock given by `fetchStock` (modelling
`currentProduct.stock || 0`).  Every item-creation failure and every
stock-update failure is caught in its own catch block and the loop
continues; the function ends on the success path (Boolean result true)
regardless. -/
def finalizeDirect (order : OrderData) (cart : List CartItem)
    (itemOk stockOk : CartItem → Bool) (fetchStock : String → Int)
    (st : Store) : Store × Bool :=
  let stOrder : Store := { st with orders := st.orders ++ [order] }
  let stItems : Store := cart.foldl
    (fun s it =>
      if itemOk it then
        { s with orderItems := s.orderItems ++ [mkOrderItemDirect order.id it] }
      else s)
    stOrder
  let stStock : Store := cart.foldl
    (fun s it =>
      if stockOk it then
        { s with stockWrites :=
            s.stockWrites ++ [(it.id, max 0 (fetchStock it.id - it.quantity))] }
      else s)
    stItems
  (stStock, true)

/-- The write sequence of `handlePaymentSuccess` (Checkout.tsx lines
453-557) after the order record has been created successfully.  All
order-item writes are attempted (Promise.all), but any item failure
rejects the awaited Promise.all and control jumps to the outer catch:
the stock phase is skipped and an error toast is surfaced (Boolean
result false).  Stock-update failures are caught inside the map
callback and never abort the success path. -/
def finalizePaid (order : OrderData) (cart : List CartItem)
    (itemOk stockOk : CartItem → Bool) (fetchStock : String → Int)
    (st : Store) : Store × Bool :=
  let stOrder : Store := { st with orders := st.orders ++ [order] }
  let stItems : Store := cart.foldl
    (fun s it =>
      if itemOk it then
        { s with orderItems := s.orderItems ++ [mkOrderItemPaid order.id it] }
      else s)
    stOrder
  if cart.all itemOk then
    let stStock : Store := cart.foldl
      (fun s it =>
        if stockOk it then
          { s with stockWrites :=
              s.stockWrites ++ [(it.id, max 0 (fetchStock it.id - it.quantity))] }
        else s)
      stItems
    (stStock, true)
  else (stItems, false)

/-- The shipping fee and grand total of `handleOrderCreation`
(Checkout.tsx lines 73-75): `shipping = subtotal > 50 ? 0 : 5`. -/
def handleOrderCreationTotal (cart : List CartItem) : ℚ :=
  let subtotal := getTotalPrice cart
  let shipping : ℚ := if 50 < subtotal then 0 else 5
  subtotal + shipping

/-- The payment-intent amount of `proceedToPayment`
(Checkout.tsx line 317). -/
def proceedToPaymentAmount (cart : List CartItem) : ℚ :=
  getTotalPrice cart + (if 50 < getTotalPrice cart then 0 else 5)

/-- The shipping fee and grand total of `handlePaymentSuccess`
(Checkout.tsx lines 359-361). -/
def handlePaymentSuccessTotal (cart : List CartItem) : ℚ :=
  let subtotal := getTotalPrice cart
  let shipping : ℚ := if 50 < subtotal then 0 else 5
  subtotal + shipping

/-- The totals rendered by the Checkout order summary
(Checkout.tsx lines 564-566). -/
def checkoutDisplayTotal (cart : List CartItem) : ℚ :=
  let subtotal := getTotalPrice cart
  let shipping : ℚ := if 50 < subtotal then 0 else 5
  subtotal + shipping

/-! ## Cart operation traces -/

/-- One cart mutation, as exposed by the cart context: an add, a
quantity update, or a reconcile from a realtime product update. -/
inductive CartOp where
  | add (product : Product)
  | update (productId : String) (quantity : Int)
  | reconcile (product : Product)
deriving Repr, DecidableEq

/-- Apply one cart operation. -/
def applyOp (cart : List CartItem) : CartOp → List CartItem
  | CartOp.add product => addToCart cart product
  | CartOp.update productId quantity => updateQuantity cart productId quantity
  | CartOp.reconcile product => updateProductInCart cart product

/-- Run a sequence of cart operations from the initial empty cart. -/
def runOps (ops : List CartOp) : List CartItem :=
  ops.foldl applyOp []

/-- The per-entry stock invariant claimed by the spec: when the entry
carries a known stock count, its quantity does not exceed it. -/
def stockRespected (it : CartItem) : Prop :=
  ∀ s, it.stock = some s → it.quantity ≤ s

instance (it : CartItem) : Decidable (stockRespected it) :=
  match h : it.stock with
  | some s =>
      if hq : it.quantity ≤ s then
        Decidable.isTrue (fun s2 hs2 => by
          rw [h] at hs2
          injection hs2 with hh
          exact hh ▸ hq)
      else
        Decidable.isFalse (fun hall => hq (hall s h))
  | none =>
      Decidable.isTrue (fun s2 hs2 => by rw [h] at hs2; cases hs2)

/-- An operation is consistent with a fixed external stock assignment
`σ` when any product record it carries reports exactly the stock that
`σ` assigns to that product id. -/
def opConsistent (σ : String → Option Int) : CartOp → Prop
  | CartOp.add product => product.stock = σ product.id
  | CartOp.update _ _ => True
  | CartOp.reconcile product => product.stock = σ product.id

instance (σ : String → Option Int) (op : CartOp) : Decidable (opConsistent σ op) :=
  match op with
  | CartOp.add product => inferInstanceAs (Decidable (product.stock = σ product.id))
  | CartOp.update _ _ => inferInstanceAs (Decidable True)
  | CartOp.reconcile product => inferInstanceAs (Decidable (product.stock = σ product.id))

/-! ## Spec-side definitions (for refinement comparison) -/

/-- Modelled from the spec glossary: sale price when valid and lower
than list price, otherwise list price (0 < sale price < price). -/
def specEffectivePrice (it : CartItem) : ℚ :=
  match it.sale_price with
  | some sp => if 0 < sp ∧ sp < it.price then sp else it.price
  | none => it.price

/-- Modelled from the spec: the cart total as the sum over entries of
effective unit price times quantity. -/
def specTotalPrice (cart : List CartItem) : ℚ :=
  (cart.map (fun it => specEffectivePrice it * it.quantity)).sum

/-! ## Iterated adds and concrete sample inputs -/

/-- Calling `addToCart` with the same product record n times from the
empty cart. -/
def addNTimes (product : Product) : Nat → List CartItem
  | 0 => []
  | Nat.succ n => addToCart (addNTimes product n) product

/-- Helper constructor for sample products; the text fields are
irrelevant to every claim. -/
def mkSampleProduct (id : String) (price : ℚ) (sp : Option ℚ) (stock : Option Int) :
    Product :=
  ⟨id, "tea", "a tea", none, price, sp, none, "100g", none, none, none, stock⟩

/-- Sample product with a known stock of 5 units. -/
def prodStock5 : Product := mkSampleProduct "x" 10 none (some 5)

/-- The same product id pushed with a reduced stock of 1 unit. -/
def prodStock1 : Product := mkSampleProduct "x" 10 none (some 1)

/-- Sample product with a known stock of 2 units. -/
def prodStock2 : Product := mkSampleProduct "y" 7 none (some 2)

/-- Operation sequence refuting the unconditional stock invariant: add
twice at stock 5, then reconcile with an update dropping stock to 1. -/
def invariantBreakingOps : List CartOp :=
  [CartOp.add prodStock5, CartOp.add prodStock5, CartOp.reconcile prodStock1]

/-- Operation sequence for the amended invariant at a fixed stock of 5. -/
def consistentOps : List CartOp :=
  [CartOp.add prodStock5, CartOp.add prodStock5, CartOp.update "x" 9,
   CartOp.reconcile prodStock5]

/-- The fixed external stock assignment under which `consistentOps` is
consistent. -/
def stockEnv5 : String → Option Int := fun _ => some 5

/-- Cart line whose sale price (15) is not below its regular price (10). -/
def itemBadSale : CartItem := ⟨mkSampleProduct "p" 10 (some 15) (some 5), 1⟩

/-- Cart line with a valid sale price below the regular price. -/
def itemGoodSale : CartItem := ⟨mkSampleProduct "q" 10 (some 8) (some 5), 2⟩

/-- Cart line without a sale price. -/
def itemNoSale : CartItem := ⟨mkSampleProduct "r" 5 none (some 9), 1⟩

/-- A realtime product record that is un-hidden but out of stock. -/
def recUnhiddenOutOfStock : ProductRecord :=
  ⟨"x", "tea", "a tea", none, 10, none, "100g", false, some 3, [], none, false⟩

/-- A realtime product record that is visible (in stock, not hidden). -/
def recVisible : ProductRecord :=
  ⟨"x", "tea", "a tea", none, 10, none, "100g", true, some 3, [], none, false⟩

/-- A shipping form with every field filled except country. -/
def shipNoCountry : ShippingInfo := ⟨"a", "b", "c@d.e", "1", "st", "ci", "1001", ""⟩

/-- A completely filled shipping form. -/
def shipFull : ShippingInfo :=
  ⟨"a", "b", "c@d.e", "1", "st", "ci", "1001", "Azerbaijan"⟩

/-- Sample order record. -/
def sampleOrder : OrderData := ⟨"ord1", 45, "paid"⟩

/-- A one-line cart whose subtotal is 40. -/
def cart40 : List CartItem := [⟨mkSampleProduct "a" 40 none none, 1⟩]

/-- A two-unit cart whose subtotal is 60. -/
def cart60 : List CartItem := [⟨mkSampleProduct "b" 30 none none, 2⟩]

/-- Sample cart used by the updateQuantity and reconcile witnesses. -/
def sampleCart : List CartItem :=
  [⟨mkSampleProduct "x" 10 none (some 5), 2⟩, ⟨mkSampleProduct "y" 7 none none, 1⟩]

/-- The invariant carried through cart operation traces for the amended
stock claim: entry product ids are pairwise distinct, every entry
reports the stock that the fixed assignment gives its id, and every
entry respects its stock bound. -/
def CartInv (σ : String → Option Int) (cart : List CartItem) : Prop :=
  (cart.map (fun it => it.id)).Nodup ∧
  ∀ it ∈ cart, it.stock = σ it.id ∧ stockRespected it

/-- A record identical to `recVisible` except that it is hidden. -/
def recHidden : ProductRecord :=
  ⟨"x", "tea", "a tea", none, 10, none, "100g", true, some 3, [], none, true⟩

/-- Failure oracle rejecting every per-item write. -/
def oracleFalse : CartItem → Bool := fun _ => false

/-- Success oracle accepting every per-item write. -/
def oracleTrue : CartItem → Bool := fun _ => true

/-- A re-fetched stock assignment returning zero for every product. -/
def fetchStockZero : String → Int := fun _ => 0

/-! ## Helper lemmas -/

theorem foldl_add_sum (f : CartItem → ℚ) (cart : List CartItem) :
    ∀ x : ℚ, cart.foldl (fun t it => t + f it) x = x + (cart.map f).sum := by
  induction cart with
  | nil => intro x; simp
  | cons hd tl ih => intro x; simp [List.foldl_cons, ih]; ring

theorem cartEffectivePrice_eq_spec (it : CartItem) :
    cartEffectivePrice it = specEffectivePrice it := by
  unfold cartEffectivePrice specEffectivePrice
  cases h : it.sale_price with
  | none => rfl
  | some sp =>
      dsimp only
      by_cases h1 : 0 < sp ∧ sp < it.price
      · rw [if_pos ⟨h1.1.ne', h1.1, h1.2⟩, if_pos h1]
      · rw [if_neg ?_, if_neg h1]
        rintro ⟨-, hpos, hlt⟩
        exact h1 ⟨hpos, hlt⟩

theorem foldl_orders_eq (f : Store → CartItem → Store)
    (hf : ∀ s it, (f s it).orders = s.orders) (cart : List CartItem) :
    ∀ s : Store, (cart.foldl f s).orders = s.orders := by
  induction cart with
  | nil => intro s; rfl
  | cons hd tl ih => intro s; rw [List.foldl_cons, ih, hf]

/-! ## Claim C5 -/

/-- Claim C5: for every cart configuration, including the empty cart,
getTotalPrice equals the sum over all entries of the effective price
(sale price if 0 < sale price < price, else price) times quantity, and
the empty cart yields 0. -/
theorem getTotalPrice_eq_specTotalPrice :
    (∀ cart : List CartItem, getTotalPrice cart = specTotalPrice cart) ∧
    getTotalPrice ([] : List CartItem) = 0 := by
  constructor
  · intro cart
    unfold getTotalPrice specTotalPrice
    rw [foldl_add_sum (fun it => cartEffectivePrice it * it.quantity) cart 0, zero_add]
    have hfun : (fun (it : CartItem) => cartEffectivePrice it * (it.quantity : ℚ)) =
        fun it => specEffectivePrice it * (it.quantity : ℚ) := by
      funext it
      rw [cartEffectivePrice_eq_spec]
    rw [hfun]
  · rfl

/-! ## Claim C2 -/

/-- Claim C2 counterexample: on a cart line with regular price 10 and
sale price 15, the direct order-creation path records unit price 15,
while the effective price of the line is 10. -/
theorem orderItemPrice_direct_counterexample :
    (mkOrderItemDirect "ord1" itemBadSale).price = 15 ∧
    specEffectivePrice itemBadSale = 10 ∧
    (mkOrderItemDirect "ord1" itemBadSale).price ≠ specEffectivePrice itemBadSale := by
  decide

/-- Claim C2 (amended): the payment-success path always records the
effective price; the direct order-creation path records the effective
price provided every set positive sale price is strictly below the
regular price (it omits the comparison against the regular price and
records any positive sale price as is). -/
theorem orderItemPrice_spec :
    (∀ (oid : String) (it : CartItem),
        (mkOrderItemPaid oid it).price = specEffectivePrice it) ∧
    (∀ (oid : String) (it : CartItem),
        (∀ sp, it.sale_price = some sp → 0 < sp → sp < it.price) →
        (mkOrderItemDirect oid it).price = specEffectivePrice it) := by
  constructor
  · intro oid it
    show cartEffectivePrice it = specEffectivePrice it
    exact cartEffectivePrice_eq_spec it
  · intro oid it hvalid
    show (match it.sale_price with
          | some sp => if sp ≠ 0 ∧ 0 < sp then sp else it.price
          | none => it.price) = specEffectivePrice it
    unfold specEffectivePrice
    cases h : it.sale_price with
    | none => rfl
    | some sp =>
        dsimp only
        by_cases hpos : 0 < sp
        · rw [if_pos ⟨hpos.ne', hpos⟩, if_pos ⟨hpos, hvalid sp h hpos⟩]
        · rw [if_neg ?_, if_neg ?_]
          · rintro ⟨hp, -⟩; exact hpos hp
          · rintro ⟨-, hp⟩; exact hpos hp

/-- Witness for the amended claim C2 at concrete cart lines. -/
theorem orderItemPrice_spec_witness :
    (mkOrderItemPaid "ord1" itemBadSale).price = specEffectivePrice itemBadSale ∧
    (mkOrderItemDirect "ord1" itemGoodSale).price = specEffectivePrice itemGoodSale :=
  ⟨orderItemPrice_spec.1 "ord1" itemBadSale,
   orderItemPrice_spec.2 "ord1" itemGoodSale (by
    intro sp hsp hpos
    rw [show itemGoodSale.sale_price = some 8 from rfl] at hsp
    injection hsp with h8
    rw [← h8]
    norm_num [itemGoodSale, mkSampleProduct])⟩

/-! ## Claim C9 -/

/-- Claim C9 counterexample: a shipping form whose country field is
empty but whose other fields are filled passes validation, so the
payment intent is requested even though a required field of the form is
empty. -/
theorem shippingValidation_counterexample :
    ¬ (∀ s : ShippingInfo, handleShippingSubmit s = true → s.country ≠ "") := by
  intro h
  exact h shipNoCountry (by decide) rfl

/-- Claim C9 (amended): the shipping phase transitions to the payment
phase (requesting a payment intent) exactly when the seven checked
fields (first name, last name, email, phone, address, city, postal
code) are all non-empty; the country field is not validated. -/
theorem shippingValidation_spec (s : ShippingInfo) :
    handleShippingSubmit s = true ↔
      (s.firstName ≠ "" ∧ s.lastName ≠ "" ∧ s.email ≠ "" ∧ s.phone ≠ "" ∧
       s.address ≠ "" ∧ s.city ≠ "" ∧ s.postalCode ≠ "") := by
  simp [handleShippingSubmit, validateForm, and_assoc]

/-- Witness for the amended claim C9 on concrete forms. -/
theorem shippingValidation_spec_witness :
    handleShippingSubmit shipFull = true :=
  (shippingValidation_spec shipFull).mpr (by decide)

/-! ## Claim C10 -/

/-- Claim C10: at every checkout site computing the total (order
summary display, payment-intent request, both finalize paths), the
shipping fee is 0 when the cart subtotal exceeds 50 and 5 otherwise,
and the grand total is subtotal + fee; concretely a subtotal of 40
yields 45 and a subtotal of 60 yields 60. -/
theorem checkoutTotals_spec :
    (∀ cart : List CartItem, 50 < getTotalPrice cart →
        handleOrderCreationTotal cart = getTotalPrice cart ∧
        handlePaymentSuccessTotal cart = getTotalPrice cart ∧
        proceedToPaymentAmount cart = getTotalPrice cart ∧
        checkoutDisplayTotal cart = getTotalPrice cart) ∧
    (∀ cart : List CartItem, getTotalPrice cart ≤ 50 →
        handleOrderCreationTotal cart = getTotalPrice cart + 5 ∧
        handlePaymentSuccessTotal cart = getTotalPrice cart + 5 ∧
        proceedToPaymentAmount cart = getTotalPrice cart + 5 ∧
        checkoutDisplayTotal cart = getTotalPrice cart + 5) ∧
    getTotalPrice cart40 = 40 ∧ handleOrderCreationTotal cart40 = 45 ∧
    getTotalPrice cart60 = 60 ∧ handleOrderCreationTotal cart60 = 60 := by
  refine ⟨?_, ?_, ?_, ?_, ?_, ?_⟩
  · intro cart h
    unfold handleOrderCreationTotal handlePaymentSuccessTotal proceedToPaymentAmount
      checkoutDisplayTotal
    simp [if_pos h]
  · intro cart h
    have h2 : ¬ (50 < getTotalPrice cart) := not_lt.mpr h
    unfold handleOrderCreationTotal handlePaymentSuccessTotal proceedToPaymentAmount
      checkoutDisplayTotal
    simp [if_neg h2]
  · norm_num [getTotalPrice, cartEffectivePrice, cart40, mkSampleProduct]
  · norm_num [handleOrderCreationTotal, getTotalPrice, cartEffectivePrice, cart40,
      mkSampleProduct]
  · norm_num [getTotalPrice, cartEffectivePrice, cart60, mkSampleProduct]
  · norm_num [handleOrderCreationTotal, getTotalPrice, cartEffectivePrice, cart60,
      mkSampleProduct]

/-- Witness for claim C10: the quantified fee clauses applied to the
concrete carts with subtotals 40 and 60. -/
theorem checkoutTotals_spec_witness :
    proceedToPaymentAmount cart40 = getTotalPrice cart40 + 5 ∧
    proceedToPaymentAmount cart60 = getTotalPrice cart60 :=
  ⟨(checkoutTotals_spec.2.1 cart40 (by
      norm_num [getTotalPrice, cartEffectivePrice, cart40, mkSampleProduct])).2.2.1,
   (checkoutTotals_spec.1 cart60 (by
      norm_num [getTotalPrice, cartEffectivePrice, cart60, mkSampleProduct])).2.2.1⟩

/-! ## Claim C4 -/

/-- Claim C4: in both finalize paths, once the order record has been
created, a failing order-item creation or stock update never deletes or
rolls back the order: the final record store still holds exactly the
created order on top of the pre-existing orders. -/
theorem finalize_no_rollback (order : OrderData) (cart : List CartItem)
    (itemOk stockOk : CartItem → Bool) (fetchStock : String → Int) (st : Store)
    (_hfail : ∃ it ∈ cart, itemOk it = false ∨ stockOk it = false) :
    (finalizeDirect order cart itemOk stockOk fetchStock st).1.orders =
      st.orders ++ [order] ∧
    order ∈ (finalizeDirect order cart itemOk stockOk fetchStock st).1.orders ∧
    (finalizePaid order cart itemOk stockOk fetchStock st).1.orders =
      st.orders ++ [order] ∧
    order ∈ (finalizePaid order cart itemOk stockOk fetchStock st).1.orders := by
  have hitem : ∀ mk : CartItem → OrderItemData, ∀ (s : Store) (it : CartItem),
      ((fun s it => if itemOk it then
          { s with orderItems := s.orderItems ++ [mk it] } else s) s it).orders
        = s.orders := by
    intro mk s it
    by_cases h : itemOk it <;> simp [h]
  have hstock : ∀ (s : Store) (it : CartItem),
      ((fun s it => if stockOk it then
          { s with stockWrites :=
              s.stockWrites ++ [(it.id, max 0 (fetchStock it.id - it.quantity))] }
        else s) s it).orders = s.orders := by
    intro s it
    by_cases h : stockOk it <;> simp [h]
  have hdirect : (finalizeDirect order cart itemOk stockOk fetchStock st).1.orders =
      st.orders ++ [order] := by
    unfold finalizeDirect
    rw [foldl_orders_eq _ hstock, foldl_orders_eq _ (hitem (mkOrderItemDirect order.id))]
  have hpaid : (finalizePaid order cart itemOk stockOk fetchStock st).1.orders =
      st.orders ++ [order] := by
    unfold finalizePaid
    by_cases hall : cart.all itemOk
    · rw [if_pos hall]
      rw [foldl_orders_eq _ hstock, foldl_orders_eq _ (hitem (mkOrderItemPaid order.id))]
    · rw [if_neg hall]
      rw [foldl_orders_eq _ (hitem (mkOrderItemPaid order.id))]
  refine ⟨hdirect, ?_, hpaid, ?_⟩
  · rw [hdirect]; exact List.mem_append_right _ (List.mem_singleton_self order)
  · rw [hpaid]; exact List.mem_append_right _ (List.mem_singleton_self order)

/-- Witness for claim C4: with every per-item write failing, the order
created by either path is still in the store. -/
theorem finalize_no_rollback_witness :
    sampleOrder ∈ (finalizeDirect sampleOrder [itemGoodSale] oracleFalse oracleFalse
      fetchStockZero ⟨[], [], []⟩).1.orders ∧
    sampleOrder ∈ (finalizePaid sampleOrder [itemGoodSale] oracleFalse oracleFalse
      fetchStockZero ⟨[], [], []⟩).1.orders :=
  have h := finalize_no_rollback sampleOrder [itemGoodSale] oracleFalse oracleFalse
    fetchStockZero ⟨[], [], []⟩ ⟨itemGoodSale, List.mem_singleton_self _, Or.inl rfl⟩
  ⟨h.2.1, h.2.2.2⟩

/-! ## Claim C8 -/

/-- Claim C8: reconciling the cart with a pushed product record U
replaces, in every entry whose id matches U, every field except the
quantity, which is preserved; entries with other ids are untouched, and
when no entry matches, the cart is unchanged and no entry is created
(the length never changes). -/
theorem updateProductInCart_spec :
    (∀ (cart : List CartItem) (u : Product) (it : CartItem), it ∈ cart → it.id = u.id →
        (⟨u, it.quantity⟩ : CartItem) ∈ updateProductInCart cart u) ∧
    (∀ (cart : List CartItem) (u : Product) (it : CartItem), it ∈ cart → it.id ≠ u.id →
        it ∈ updateProductInCart cart u) ∧
    (∀ (cart : List CartItem) (u : Product),
        (∀ it ∈ cart, it.id ≠ u.id) → updateProductInCart cart u = cart) ∧
    (∀ (cart : List CartItem) (u : Product),
        (updateProductInCart cart u).length = cart.length) := by
  refine ⟨?_, ?_, ?_, ?_⟩
  · intro cart u it hmem hid
    unfold updateProductInCart
    refine List.mem_map.mpr ⟨it, hmem, ?_⟩
    simp [hid]
  · intro cart u it hmem hne
    unfold updateProductInCart
    refine List.mem_map.mpr ⟨it, hmem, ?_⟩
    simp [hne]
  · intro cart u hall
    unfold updateProductInCart
    have : ∀ it ∈ cart,
        (if it.id == u.id then (⟨u, it.quantity⟩ : CartItem) else it) = id it := by
      intro it hmem
      simp [hall it hmem]
    rw [List.map_congr_left this, List.map_id]
  · intro cart u
    unfold updateProductInCart
    exact List.length_map cart _

/-- Witness for claim C8 on a concrete cart: the matching entry keeps
quantity 2 while taking the pushed record's fields, and a cart with no
matching entry is unchanged. -/
theorem updateProductInCart_spec_witness :
    (⟨prodStock1, 2⟩ : CartItem) ∈ updateProductInCart sampleCart prodStock1 ∧
    updateProductInCart cart40 prodStock1 = cart40 :=
  ⟨updateProductInCart_spec.1 sampleCart prodStock1
      ⟨mkSampleProduct "x" 10 none (some 5), 2⟩ (List.mem_cons_self _ _) rfl,
   updateProductInCart_spec.2.2.1 cart40 prodStock1 (by decide)⟩

/-! ## Claim C7 -/

/-- Claim C7: updateQuantity with a requested value of 0 or below
removes the entry; with a positive value within the known stock it sets
the entry's quantity to that value; with a value above the known stock
it clamps the quantity to the stock; and for a product id absent from
the cart a positive request leaves the cart unchanged. -/
theorem updateQuantity_spec :
    (∀ (cart : List CartItem) (pid : String) (q : Int), q ≤ 0 →
        ∀ it ∈ updateQuantity cart pid q, it.id ≠ pid) ∧
    (∀ (cart : List CartItem) (pid : String) (q S : Int) (it : CartItem),
        it ∈ cart → it.id = pid → it.stock = some S → 0 < q → q ≤ S →
        ({ it with quantity := q } : CartItem) ∈ updateQuantity cart pid q) ∧
    (∀ (cart : List CartItem) (pid : String) (q S : Int) (it : CartItem),
        it ∈ cart → it.id = pid → it.stock = some S → 0 ≤ S → S < q →
        ({ it with quantity := S } : CartItem) ∈ updateQuantity cart pid q) ∧
    (∀ (cart : List CartItem) (pid : String) (q : Int), 0 < q →
        (∀ it ∈ cart, it.id ≠ pid) → updateQuantity cart pid q = cart) := by
  refine ⟨?_, ?_, ?_, ?_⟩
  · intro cart pid q hq it hit
    unfold updateQuantity at hit
    rw [if_pos hq] at hit
    unfold removeFromCart at hit
    have h2 := (List.mem_filter.mp hit).2
    simpa using h2
  · intro cart pid q S it hmem hid hstock hq0 hqS
    unfold updateQuantity
    rw [if_neg (not_le.mpr hq0)]
    refine List.mem_map.mpr ⟨it, hmem, ?_⟩
    simp [hid, hstock, not_lt.mpr hqS]
  · intro cart pid q S it hmem hid hstock hS0 hSq
    unfold updateQuantity
    rw [if_neg (not_le.mpr (lt_of_le_of_lt hS0 hSq))]
    refine List.mem_map.mpr ⟨it, hmem, ?_⟩
    simp [hid, hstock, hSq]
  · intro cart pid q hq0 hall
    unfold updateQuantity
    rw [if_neg (not_le.mpr hq0)]
    have : ∀ it ∈ cart,
        (if it.id == pid then
          match it.stock with
          | some s => if s < q then { it with quantity := s }
                      else { it with quantity := q }
          | none => { it with quantity := q }
        else it) = id it := by
      intro it hmem
      simp [hall it hmem]
    rw [List.map_congr_left this, List.map_id]

/-- Witness for claim C7 on a concrete cart with a stock-5 entry:
removal leaves only the other entry, an in-range request sets the
quantity, an out-of-range request clamps to 5, and an absent id leaves
the cart unchanged. -/
theorem updateQuantity_spec_witness :
    (⟨mkSampleProduct "y" 7 none none, 1⟩ : CartItem).id ≠ "x" ∧
    (⟨mkSampleProduct "x" 10 none (some 5), 3⟩ : CartItem) ∈
      updateQuantity sampleCart "x" 3 ∧
    (⟨mkSampleProduct "x" 10 none (some 5), 5⟩ : CartItem) ∈
      updateQuantity sampleCart "x" 9 ∧
    updateQuantity cart40 "zz" 3 = cart40 :=
  ⟨updateQuantity_spec.1 sampleCart "x" 0 (le_refl 0)
      ⟨mkSampleProduct "y" 7 none none, 1⟩ (by decide),
   updateQuantity_spec.2.1 sampleCart "x" 3 5
      ⟨mkSampleProduct "x" 10 none (some 5), 2⟩ (List.mem_cons_self _ _) rfl rfl
      (by decide) (by decide),
   updateQuantity_spec.2.2.1 sampleCart "x" 9 5
      ⟨mkSampleProduct "x" 10 none (some 5), 2⟩ (List.mem_cons_self _ _) rfl rfl
      (by decide) (by decide),
   updateQuantity_spec.2.2.2 cart40 "zz" 3 (by decide) (by decide)⟩

/-! ## Claim C3 -/

/-- Claim C3 counterexample: an update event that un-hides a product
which is out of stock does not put it back into the rendered list, so
un-hiding alone does not guarantee the list contains the product id. -/
theorem productGrid_unhide_counterexample :
    recUnhiddenOutOfStock.hidden = false ∧
    applyProductUpdate [] recUnhiddenOutOfStock = [] ∧
    ¬ ∃ p ∈ applyProductUpdate [] recUnhiddenOutOfStock,
        p.id = recUnhiddenOutOfStock.id := by
  decide

/-- Claim C3 (amended): after processing a realtime product update, a
hidden record's id is absent from the rendered list; a record that is
both un-hidden and in stock is upserted (replaced in place when
present, prepended otherwise) and hence present; and an update that
makes a record invisible (hidden or out of stock) leaves exactly the
other products in the list. -/
theorem applyProductUpdate_spec :
    (∀ (l : List Product) (r : ProductRecord), r.hidden = true →
        ∀ p ∈ applyProductUpdate l r, p.id ≠ r.id) ∧
    (∀ (l : List Product) (r : ProductRecord), r.in_stock = true → r.hidden = false →
        (∃ q ∈ l, q.id = r.id) →
        applyProductUpdate l r =
          l.map (fun p => if p.id == r.id then transformRecord r else p)) ∧
    (∀ (l : List Product) (r : ProductRecord), r.in_stock = true → r.hidden = false →
        (∀ q ∈ l, q.id ≠ r.id) →
        applyProductUpdate l r = transformRecord r :: l) ∧
    (∀ (l : List Product) (r : ProductRecord), r.in_stock = true → r.hidden = false →
        transformRecord r ∈ applyProductUpdate l r) ∧
    (∀ (l : List Product) (r : ProductRecord), ¬(r.in_stock = true ∧ r.hidden = false) →
        ∀ p : Product, p ∈ applyProductUpdate l r ↔ (p ∈ l ∧ p.id ≠ r.id)) := by
  have hvis : ∀ (r : ProductRecord), r.in_stock = true → r.hidden = false →
      (r.in_stock && !r.hidden) = true := by
    intro r h1 h2; rw [h1, h2]; rfl
  have hinvis : ∀ (r : ProductRecord), ¬(r.in_stock = true ∧ r.hidden = false) →
      (r.in_stock && !r.hidden) = false := by
    intro r h
    cases h1 : r.in_stock <;> cases h2 : r.hidden <;> simp_all
  refine ⟨?_, ?_, ?_, ?_, ?_⟩
  · intro l r hh p hp
    unfold applyProductUpdate at hp
    rw [if_neg ?_] at hp
    · have h2 := (List.mem_filter.mp hp).2
      simpa using h2
    · rw [hh]; simp
  · intro l r h1 h2 hex
    unfold applyProductUpdate
    rw [if_pos (hvis r h1 h2)]
    cases hf : l.find? (fun p => p.id == r.id) with
    | some q => rfl
    | none =>
        rcases hex with ⟨q, hq, hqid⟩
        have := List.find?_eq_none.mp hf q hq
        simp [hqid] at this
  · intro l r h1 h2 hall
    unfold applyProductUpdate
    rw [if_pos (hvis r h1 h2)]
    have hf : l.find? (fun p => p.id == r.id) = none := by
      refine List.find?_eq_none.mpr ?_
      intro q hq
      simp [hall q hq]
    rw [hf]
  · intro l r h1 h2
    by_cases hex : ∃ q ∈ l, q.id = r.id
    · unfold applyProductUpdate
      rw [if_pos (hvis r h1 h2)]
      rcases hex with ⟨q, hq, hqid⟩
      cases hf : l.find? (fun p => p.id == r.id) with
      | some p2 =>
          refine List.mem_map.mpr ⟨q, hq, ?_⟩
          simp [hqid]
      | none =>
          have := List.find?_eq_none.mp hf q hq
          simp [hqid] at this
    · unfold applyProductUpdate
      rw [if_pos (hvis r h1 h2)]
      have hf : l.find? (fun p => p.id == r.id) = none := by
        refine List.find?_eq_none.mpr ?_
        intro q hq
        have : q.id ≠ r.id := fun h => hex ⟨q, hq, h⟩
        simp [this]
      rw [hf]
      exact List.mem_cons_self _ _
  · intro l r h p
    unfold applyProductUpdate
    rw [if_neg ?_]
    · rw [List.mem_filter]
      simp
    · rw [hinvis r h]; simp

/-- Witness for the amended claim C3: a visible update prepends into
the empty list, and a hidden update removes nothing but the matching
id from a singleton list. -/
theorem applyProductUpdate_spec_witness :
    applyProductUpdate [] recVisible = [transformRecord recVisible] ∧
    transformRecord recVisible ∈ applyProductUpdate [] recVisible ∧
    (transformRecord recVisible ∈
        applyProductUpdate [transformRecord recVisible] recHidden ↔
      (transformRecord recVisible ∈ [transformRecord recVisible] ∧
        (transformRecord recVisible).id ≠ recHidden.id)) :=
  ⟨applyProductUpdate_spec.2.2.1 [] recVisible rfl rfl (by simp),
   applyProductUpdate_spec.2.2.2.1 [] recVisible rfl rfl,
   applyProductUpdate_spec.2.2.2.2 [transformRecord recVisible] recHidden
      (by simp [recHidden]) (transformRecord recVisible)⟩

/-! ## Claim C1: invariant machinery -/

theorem mem_id_eq {cart : List CartItem}
    (hnd : (cart.map (fun it => it.id)).Nodup)
    {a b : CartItem} (ha : a ∈ cart) (hb : b ∈ cart) (hab : a.id = b.id) : a = b :=
  List.inj_on_of_nodup_map hnd ha hb hab

theorem cartInv_addToCart (σ : String → Option Int) (cart : List CartItem)
    (p : Product) (hinv : CartInv σ cart) (hp : p.stock = σ p.id) :
    CartInv σ (addToCart cart p) := by
  obtain ⟨hnd, hall⟩ := hinv
  unfold addToCart
  cases hf : cart.find? (fun it => it.id == p.id) with
  | none =>
      by_cases hs : stockDefinedAndLe p.stock 0 = true
      · rw [if_pos hs]; exact ⟨hnd, hall⟩
      · rw [if_neg hs]
        constructor
        · rw [List.map_append, List.nodup_append]
          refine ⟨hnd, List.nodup_singleton _, ?_⟩
          intro a ha hb
          rcases List.mem_map.mp ha with ⟨it, hmem, hid⟩
          have hne := List.find?_eq_none.mp hf it hmem
          rw [beq_iff_eq] at hne
          have hbp : a = p.id := by simpa using hb
          exact hne (hid.trans hbp)
        · intro it hit
          rcases List.mem_append.mp hit with hmem | hmem
          · exact hall it hmem
          · have heq : it = ⟨p, 1⟩ := List.mem_singleton.mp hmem
            subst heq
            refine ⟨hp, ?_⟩
            intro s hs2
            have hfalse : stockDefinedAndLe p.stock 0 = false :=
              Bool.eq_false_iff.mpr hs
            have hps : p.stock = some s := hs2
            rw [hps] at hfalse
            unfold stockDefinedAndLe at hfalse
            simp only [decide_eq_false_iff_not, not_le] at hfalse
            show (1 : Int) ≤ s
            omega
  | some existing =>
      have hmemE : existing ∈ cart := List.mem_of_find?_eq_some hf
      have hidE : existing.id = p.id := by
        have := List.find?_some hf
        rwa [beq_iff_eq] at this
      dsimp only
      by_cases hs : stockDefinedAndLe p.stock existing.quantity = true
      · rw [if_pos hs]; exact ⟨hnd, hall⟩
      · rw [if_neg hs]
        constructor
        · have hids : (cart.map (fun it =>
              if it.id == p.id then { it with quantity := it.quantity + 1 } else it)).map
                (fun it => it.id) = cart.map (fun it => it.id) := by
            rw [List.map_map]
            refine List.map_congr_left ?_
            intro it _
            by_cases h : (it.id == p.id) = true
            · rw [Function.comp_apply, if_pos h]
            · rw [Function.comp_apply, if_neg h]
          rw [hids]; exact hnd
        · intro it2 hit2
          rcases List.mem_map.mp hit2 with ⟨it, hmem, heq⟩
          by_cases h : (it.id == p.id) = true
          · rw [if_pos h] at heq
            subst heq
            have hid : it.id = p.id := beq_iff_eq.mp h
            have hitE : it = existing := mem_id_eq hnd hmem hmemE (hid.trans hidE.symm)
            refine ⟨(hall it hmem).1, ?_⟩
            intro s hs2
            have hps : p.stock = some s := by
              rw [hp, ← hid, ← (hall it hmem).1]
              exact hs2
            rw [hps] at hs
            have hfalse : stockDefinedAndLe (some s) existing.quantity = false :=
              Bool.eq_false_iff.mpr hs
            unfold stockDefinedAndLe at hfalse
            simp only [decide_eq_false_iff_not, not_le] at hfalse
            show it.quantity + 1 ≤ s
            rw [hitE]
            omega
          · rw [if_neg h] at heq
            subst heq
            exact hall it hmem

theorem cartInv_updateQuantity (σ : String → Option Int) (cart : List CartItem)
    (pid : String) (q : Int) (hinv : CartInv σ cart) :
    CartInv σ (updateQuantity cart pid q) := by
  obtain ⟨hnd, hall⟩ := hinv
  unfold updateQuantity
  by_cases hq : q ≤ 0
  · rw [if_pos hq]
    unfold removeFromCart
    constructor
    · exact ((List.filter_sublist cart).map (fun it => it.id)).nodup hnd
    · intro it hit
      exact hall it (List.mem_of_mem_filter hit)
  · rw [if_neg hq]
    constructor
    · have hids : (cart.map (fun it =>
          if it.id == pid then
            match it.stock with
            | some s => if s < q then { it with quantity := s }
                        else { it with quantity := q }
            | none => { it with quantity := q }
          else it)).map (fun it => it.id) = cart.map (fun it => it.id) := by
        rw [List.map_map]
        refine List.map_congr_left ?_
        intro it _
        by_cases h : (it.id == pid) = true
        · rw [Function.comp_apply, if_pos h]
          cases hstock : it.stock with
          | some s =>
              dsimp only
              by_cases hlt : s < q
              · rw [if_pos hlt]
              · rw [if_neg hlt]
          | none => rfl
        · rw [Function.comp_apply, if_neg h]
      rw [hids]; exact hnd
    · intro it2 hit2
      rcases List.mem_map.mp hit2 with ⟨it, hmem, heq⟩
      by_cases h : (it.id == pid) = true
      · rw [if_pos h] at heq
        cases hstock : it.stock with
        | some s =>
            rw [hstock] at heq
            dsimp only at heq
            by_cases hlt : s < q
            · rw [if_pos hlt] at heq
              subst heq
              refine ⟨(hall it hmem).1, ?_⟩
              intro s2 hs2
              have : s2 = s := by
                have h2 : it.stock = some s2 := hs2
                rw [hstock] at h2
                injection h2 with h3
                exact h3.symm
              show s ≤ s2
              omega
            · rw [if_neg hlt] at heq
              subst heq
              refine ⟨(hall it hmem).1, ?_⟩
              intro s2 hs2
              have : s2 = s := by
                have h2 : it.stock = some s2 := hs2
                rw [hstock] at h2
                injection h2 with h3
                exact h3.symm
              show q ≤ s2
              omega
        | none =>
            rw [hstock] at heq
            dsimp only at heq
            subst heq
            refine ⟨(hall it hmem).1, ?_⟩
            intro s2 hs2
            have h2 : it.stock = some s2 := hs2
            rw [hstock] at h2
            cases h2
      · rw [if_neg h] at heq
        subst heq
        exact hall it hmem

theorem cartInv_updateProductInCart (σ : String → Option Int) (cart : List CartItem)
    (u : Product) (hinv : CartInv σ cart) (hu : u.stock = σ u.id) :
    CartInv σ (updateProductInCart cart u) := by
  obtain ⟨hnd, hall⟩ := hinv
  unfold updateProductInCart
  constructor
  · have hids : (cart.map (fun it =>
        if it.id == u.id then (⟨u, it.quantity⟩ : CartItem) else it)).map
          (fun it => it.id) = cart.map (fun it => it.id) := by
      rw [List.map_map]
      refine List.map_congr_left ?_
      intro it _
      by_cases h : (it.id == u.id) = true
      · have hid : it.id = u.id := beq_iff_eq.mp h
        rw [Function.comp_apply, if_pos h]
        exact hid.symm
      · rw [Function.comp_apply, if_neg h]
    rw [hids]; exact hnd
  · intro it2 hit2
    rcases List.mem_map.mp hit2 with ⟨it, hmem, heq⟩
    by_cases h : (it.id == u.id) = true
    · rw [if_pos h] at heq
      subst heq
      have hid : it.id = u.id := beq_iff_eq.mp h
      refine ⟨hu, ?_⟩
      intro s hs2
      have hstock : it.stock = some s := by
        rw [(hall it hmem).1, hid, ← hu]
        exact hs2
      exact (hall it hmem).2 s hstock
    · rw [if_neg h] at heq
      subst heq
      exact hall it hmem

theorem cartInv_applyOp (σ : String → Option Int) (cart : List CartItem)
    (op : CartOp) (hinv : CartInv σ cart) (hop : opConsistent σ op) :
    CartInv σ (applyOp cart op) := by
  cases op with
  | add product => exact cartInv_addToCart σ cart product hinv hop
  | update pid q => exact cartInv_updateQuantity σ cart pid q hinv
  | reconcile product => exact cartInv_updateProductInCart σ cart product hinv hop

theorem cartInv_foldl (σ : String → Option Int) :
    ∀ (ops : List CartOp) (cart : List CartItem), CartInv σ cart →
      (∀ op ∈ ops, opConsistent σ op) → CartInv σ (ops.foldl applyOp cart) := by
  intro ops
  induction ops with
  | nil => intro cart hinv _; exact hinv
  | cons hd tl ih =>
      intro cart hinv hops
      rw [List.foldl_cons]
      exact ih (applyOp cart hd)
        (cartInv_applyOp σ cart hd hinv (hops hd (List.mem_cons_self _ _)))
        (fun op hop => hops op (List.mem_cons_of_mem _ hop))

/-- Claim C1 counterexample: adding a stock-5 product twice and then
reconciling with an update that drops its stock to 1 reaches a cart
whose entry has known stock 1 but quantity 2. -/
theorem cartStockInvariant_counterexample :
    ∃ it ∈ runOps invariantBreakingOps,
      it.stock = some 1 ∧ it.quantity = 2 ∧ ¬ stockRespected it := by
  decide

/-- Claim C1 (amended): the invariant holds for every reachable cart
state provided the product records supplied to add and reconcile
operations always report the stock that a fixed external assignment
gives their product id (i.e. the last-known stock of a product is
consistent across operations); a reconcile that lowers a stock below an
entry's current quantity can otherwise violate it. -/
theorem cartStockInvariant (σ : String → Option Int) (ops : List CartOp)
    (hops : ∀ op ∈ ops, opConsistent σ op) :
    ∀ it ∈ runOps ops, stockRespected it := by
  intro it hit
  have hinv : CartInv σ (runOps ops) := by
    unfold runOps
    exact cartInv_foldl σ ops [] ⟨List.nodup_nil, by intro it2 hit2; cases hit2⟩ hops
  exact (hinv.2 it hit).2

/-- Witness for the amended claim C1: a consistent trace at fixed stock
5 (two adds, an over-limit quantity request, a reconcile) satisfies the
invariant at each entry of its final cart. -/
theorem cartStockInvariant_witness :
    stockRespected (⟨prodStock5, 5⟩ : CartItem) :=
  cartStockInvariant stockEnv5 consistentOps (by decide)
    ⟨prodStock5, 5⟩ (by decide)

/-! ## Claim C6 -/

theorem addToCart_empty (p : Product) (S : Int) (hS : p.stock = some S) :
    addToCart [] p = if S ≤ 0 then [] else [⟨p, 1⟩] := by
  unfold addToCart
  show (if stockDefinedAndLe p.stock 0 = true then ([] : List CartItem)
      else [] ++ [(⟨p, 1⟩ : CartItem)]) = _
  rw [hS]
  unfold stockDefinedAndLe
  by_cases h : S ≤ 0
  · rw [if_pos (decide_eq_true h), if_pos h]
  · rw [if_neg (by simp [h]), if_neg h]
    rfl

theorem addToCart_singleton (p : Product) (S q : Int) (hS : p.stock = some S) :
    addToCart [(⟨p, q⟩ : CartItem)] p =
      if S ≤ q then [(⟨p, q⟩ : CartItem)] else [⟨p, q + 1⟩] := by
  unfold addToCart
  have hbeq : ((⟨p, q⟩ : CartItem).id == p.id) = true := beq_iff_eq.mpr rfl
  rw [List.find?_cons, hbeq]
  show (if stockDefinedAndLe p.stock q = true then [(⟨p, q⟩ : CartItem)]
      else List.map (fun it => if it.id == p.id then
        { it with quantity := it.quantity + 1 } else it) [⟨p, q⟩]) = _
  rw [hS]
  unfold stockDefinedAndLe
  by_cases h : S ≤ q
  · rw [if_pos (decide_eq_true h), if_pos h]
  · rw [if_neg (by simp [h]), if_neg h]
    show [if (⟨p, q⟩ : CartItem).id == p.id then (⟨p, q + 1⟩ : CartItem)
        else ⟨p, q⟩] = _
    rw [hbeq]
    rfl

theorem addNTimes_zero_stock (p : Product) (hS : p.stock = some 0) :
    ∀ k : Nat, addNTimes p k = [] := by
  intro k
  induction k with
  | zero => rfl
  | succ n ih =>
      show addToCart (addNTimes p n) p = []
      rw [ih, addToCart_empty p 0 hS, if_pos (le_refl (0 : Int))]

theorem addNTimes_shape (p : Product) (S : Int) (hS : p.stock = some S)
    (hpos : 0 < S) :
    ∀ k : Nat, addNTimes p k =
      if k = 0 then [] else [⟨p, if (k : Int) ≤ S then (k : Int) else S⟩] := by
  intro k
  induction k with
  | zero => rfl
  | succ n ih =>
      show addToCart (addNTimes p n) p = _
      rw [ih]
      by_cases hn : n = 0
      · subst hn
        rw [if_pos rfl, addToCart_empty p S hS, if_neg (not_le.mpr hpos),
          if_neg (Nat.succ_ne_zero 0), if_pos (show ((0 + 1 : Nat) : Int) ≤ S by omega)]
        norm_num
      · rw [if_neg hn, addToCart_singleton p S _ hS, if_neg (Nat.succ_ne_zero n)]
        by_cases hSn : S ≤ (n : Int)
        · have h1 : (if (n : Int) ≤ S then (n : Int) else S) = S := by
            split_ifs <;> omega
          rw [h1, if_pos (le_refl S),
            if_neg (show ¬ ((n + 1 : Nat) : Int) ≤ S by omega)]
        · have h1 : (if (n : Int) ≤ S then (n : Int) else S) = (n : Int) := by
            split_ifs <;> omega
          rw [h1, if_neg hSn, if_pos (show ((n + 1 : Nat) : Int) ≤ S by omega)]
          push_cast
          rfl

theorem getItemQuantity_singleton (p : Product) (q : Int) :
    getItemQuantity [(⟨p, q⟩ : CartItem)] p.id = q := by
  unfold getItemQuantity
  rw [List.find?_cons, show ((⟨p, q⟩ : CartItem).id == p.id) = true
    from beq_iff_eq.mpr rfl]

/-- Claim C6: for a product with known stock S, calling addToCart S+1
times from the empty cart leaves exactly S units of the product in the
cart; each of the first S calls raises the quantity to its call index
and the final call is a no-op leaving the cart unchanged. -/
theorem addToCart_saturates (p : Product) (S : Int) (hS : p.stock = some S)
    (h0 : 0 ≤ S) :
    getItemQuantity (addNTimes p (S.toNat + 1)) p.id = S ∧
    (∀ k : Nat, (k : Int) ≤ S → getItemQuantity (addNTimes p k) p.id = k) ∧
    addNTimes p (S.toNat + 1) = addNTimes p S.toNat := by
  rcases eq_or_lt_of_le h0 with hz | hpos
  · have hS0 : p.stock = some 0 := by rw [hS, ← hz]
    refine ⟨?_, ?_, ?_⟩
    · rw [addNTimes_zero_stock p hS0]
      rw [← hz]
      rfl
    · intro k hk
      have hk0 : k = 0 := by omega
      subst hk0
      rw [addNTimes_zero_stock p hS0]
      rfl
    · rw [addNTimes_zero_stock p hS0, addNTimes_zero_stock p hS0]
  · have hshape := addNTimes_shape p S hS hpos
    refine ⟨?_, ?_, ?_⟩
    · rw [hshape (S.toNat + 1), if_neg (Nat.succ_ne_zero _),
        if_neg (show ¬ ((S.toNat + 1 : Nat) : Int) ≤ S by omega)]
      exact getItemQuantity_singleton p S
    · intro k hk
      by_cases hk0 : k = 0
      · subst hk0
        rfl
      · rw [hshape k, if_neg hk0, if_pos hk]
        exact getItemQuantity_singleton p (k : Int)
    · rw [hshape (S.toNat + 1), hshape S.toNat, if_neg (Nat.succ_ne_zero _),
        if_neg (show S.toNat ≠ 0 by omega),
        if_neg (show ¬ ((S.toNat + 1 : Nat) : Int) ≤ S by omega),
        if_pos (show ((S.toNat : Nat) : Int) ≤ S by omega)]
      congr 2
      omega

/-- Witness for claim C6: with stock 2, three adds leave quantity 2 and
the third add is a no-op. -/
theorem addToCart_saturates_witness :
    getItemQuantity (addNTimes prodStock2 3) prodStock2.id = 2 ∧
    addNTimes prodStock2 3 = addNTimes prodStock2 2 :=
  have h := addToCart_saturates prodStock2 2 rfl (by decide)
  ⟨h.1, h.2.2⟩

end MoriTea
